import Mathlib

/-!
Shallow embedding of the structural-equivalence oracle in
`typify-impl/src/test_util.rs` (the `SynCompare` trait, its impls, and the
attribute normalizer `get_serde` / `compare_attributes`).

Modelling conventions:
* `syn` AST nodes are embedded as Lean inductives/structures carrying exactly
  the components the oracle reads.  Path equality in `syn` is structural
  equality; a path is embedded as its list of segment identifiers.
* Token streams (`proc_macro2::TokenStream`) are lists of token trees.  The
  `Display` rendering used by `get_serde` is modelled as a space-separated
  join of the token renderings, with a group rendered inside parentheses;
  the directive-prefix test `starts_with("rename")` only depends on the
  rendering of the leading identifier token, which this captures.
* A comparison in the source returns `Result<(), String>` but can also abort
  the process via `assert!`; both outcomes are reflected in `CmpRes`:
  `ok`, `err msg` (an `Err(msg)` result), `panicked` (an assertion failure).
* Every `syn_cmp` method takes the `ignore_variant_names` flag, exactly as
  the trait does; impls that ignore the flag, or that reset it to `false`
  when recursing, are embedded with the same (non-)use of the argument.
-/

namespace Typify

/-- Outcome of a `syn_cmp` call: success, a mismatch `Err(msg)`, or a
process-aborting assertion failure. -/
inductive CmpRes where
  | ok : CmpRes
  | err : String → CmpRes
  | panicked : CmpRes
deriving DecidableEq, Repr

/-- Sequencing of two comparisons, as Rust's `?` operator: the first
non-success outcome is the outcome of the whole. -/
def CmpRes.andThen : CmpRes → CmpRes → CmpRes
  | .ok, r => r
  | .err m, _ => .err m
  | .panicked, _ => .panicked

/-- A `proc_macro2::TokenTree`: a delimited group, a punctuation character,
an identifier, or a literal (rendered by its source text). -/
inductive TokenTree where
  | group : List TokenTree → TokenTree
  | punct : Char → TokenTree
  | ident : String → TokenTree
  | lit : String → TokenTree
deriving Repr

/-- Whether a token is a comma punctuation token — the split predicate used
by `get_serde` (`matches!(token, Punct(p) if p.as_char() == ',')`).  Commas
nested inside a group are invisible here, as in the source, since the split
walks only the top-level token trees. -/
def TokenTree.isComma : TokenTree → Bool
  | .punct c => c = ','
  | _ => false

/-- Whether a token tree is a delimited group. -/
def TokenTree.isGroup : TokenTree → Bool
  | .group _ => true
  | _ => false

mutual

/-- Rendering of one token tree, as used by `TokenStream::to_string`. -/
def TokenTree.render : TokenTree → String
  | .group ts => "(" ++ renderStream ts ++ ")"
  | .punct c => String.singleton c
  | .ident s => s
  | .lit s => s

/-- Rendering of a token stream: space-separated token renderings. -/
def renderStream : List TokenTree → String
  | [] => ""
  | [t] => t.render
  | t :: ts => t.render ++ " " ++ renderStream ts

end

/-- Rust's `str::starts_with` on strings, via their character lists. -/
def strStartsWith (s p : String) : Bool :=
  p.toList.isPrefixOf s.toList

/-- Rust's `slice::split` on the comma predicate: splits a token run into
comma-delimited runs.  An empty run splits into one empty chunk, and each
separator starts a new chunk, exactly as `split` does. -/
def splitOnComma : List TokenTree → List (List TokenTree)
  | [] => [[]]
  | t :: ts =>
    if t.isComma then
      [] :: splitOnComma ts
    else
      match splitOnComma ts with
      | [] => [[t]]
      | g :: gs => (t :: g) :: gs

/-- A `syn::Attribute` as the oracle reads it: the attribute path's segment
identifiers (`attr.path.segments`, each by its `ident`) and the trailing
token stream (`attr.tokens`). -/
structure Attribute where
  path : List String
  tokens : List TokenTree

/-- Per-attribute step of `get_serde`'s `filter_map` closure: either the
attribute is irrelevant / skipped (no contribution), or it yields the
list of serde option strings, or the `assert!(iter.next().is_none())` fires. -/
inductive SerdeStep where
  | skip : SerdeStep
  | opts : List String → SerdeStep
  | panicked : SerdeStep
deriving Repr

/-- The body of `get_serde`'s `filter_map` closure for one attribute:
take the first path segment's identifier (`first()?`), require it to be
`"serde"`, then require the first token to be a group; a group followed by
any further token triggers the assertion, a non-group (or absent) first
token yields no contribution.  The group's stream is split on top-level
commas, each run rendered to a string, and runs starting with `"rename"`
are dropped. -/
def serdeStep (attr : Attribute) : SerdeStep :=
  match attr.path.head? with
  | none => .skip
  | some name =>
    if name = "serde" then
      match attr.tokens with
      | TokenTree.group g :: rest =>
        if rest.isEmpty then
          .opts (((splitOnComma g).map renderStream).filter
            (fun s => !strStartsWith s "rename"))
        else
          .panicked
      | _ => .skip
    else
      .skip

/-- `get_serde`: collect the serde option strings of all attributes into a
`HashSet<String>` (embedded as `Finset String`).  `none` models the process
aborting on the assertion inside the closure. -/
def get_serde (attrs : List Attribute) : Option (Finset String) :=
  attrs.foldr
    (fun attr acc =>
      match acc with
      | none => none
      | some s =>
        match serdeStep attr with
        | .skip => some s
        | .opts l => some (l.toFinset ∪ s)
        | .panicked => none)
    (some ∅)

/-- `compare_attributes`: normalize both attribute lists and require the
resulting sets to be equal. -/
def compare_attributes (a b : List Attribute) : CmpRes :=
  match get_serde a with
  | none => .panicked
  | some sa =>
    match get_serde b with
    | none => .panicked
    | some sb =>
      if sa = sb then .ok
      else .err "different serde options"

/-- `SynCompare for syn::Ident` (an identifier is embedded as its string);
the flag argument is ignored, as in the source (`fn syn_cmp(&self, other,
_: bool)`). -/
def identCmp (a b : String) (_ : Bool) : CmpRes :=
  if a ≠ b then .err ("idents differ: " ++ a ++ " " ++ b)
  else .ok

/-- `SynCompare for Option<T>`: both absent is a success, both present
defers to the inner comparison with the flag passed through, mixed is an
error. -/
def optCmp (cmp : α → α → Bool → CmpRes) :
    Option α → Option α → Bool → CmpRes
  | none, none, _ => .ok
  | some a, some b, fl => cmp a b fl
  | _, _, _ => .err "options don't match"

/-- The diagnostic of `SynCompare for Punctuated<T, P>` on a length
mismatch, carrying both lengths. -/
def lengthMsg (a b : Nat) : String :=
  "lengths don't match: " ++ toString a ++ " != " ++ toString b

/-- Element-wise phase of `SynCompare for Punctuated<T, P>`:
`zip` + `try_for_each`, short-circuiting on the first non-success, the flag
passed through to every element comparison. -/
def zipCmp (cmp : α → α → Bool → CmpRes) :
    List α → List α → Bool → CmpRes
  | x :: xs, y :: ys, fl => (cmp x y fl).andThen (zipCmp cmp xs ys fl)
  | _, _, _ => .ok

/-- `SynCompare for Punctuated<T, P>`: lengths must agree (else an error
carrying both lengths, with no element compared), then element-wise
comparison of the zipped sequences. -/
def punctuatedCmp (cmp : α → α → Bool → CmpRes)
    (a b : List α) (fl : Bool) : CmpRes :=
  if a.length ≠ b.length then .err (lengthMsg a.length b.length)
  else zipCmp cmp a b fl

/-- A `syn::Type` as far as the oracle distinguishes: a path type
(`Type::Path`, with a flag recording whether a qualified-self `qself` is
present, and the path's segment identifiers), a tuple type (`Type::Tuple`
with its element types), or any other `Type` variant. -/
inductive Ty where
  | path : Bool → List String → Ty
  | tuple : List Ty → Ty
  | other : Ty
deriving Repr

/-- `SynCompare for TypePath`: first assert that neither side has a
`qself` (an assertion failure aborts the process), then compare the paths
for exact structural equality.  The flag is ignored. -/
def typePathCmp (qa : Bool) (pa : List String) (qb : Bool) (pb : List String)
    (_ : Bool) : CmpRes :=
  if qa then .panicked
  else if qb then .panicked
  else if pa ≠ pb then .err "paths did not match"
  else .ok

mutual

/-- `SynCompare for Type`: tuples defer to `SynCompare for TypeTuple`
(which compares the element sequences as a `Punctuated` comparison — the
length check carrying both lengths, then the element-wise phase — inlined
here so the recursion stays structural), paths defer to
`SynCompare for TypePath`; in both cases the flag is reset to `false`.
Every other pairing is an error. -/
def tyCmp : Ty → Ty → Bool → CmpRes
  | .tuple a, .tuple b, _ =>
    if a.length ≠ b.length then .err (lengthMsg a.length b.length)
    else tyZip a b false
  | .path qa pa, .path qb pb, _ => typePathCmp qa pa qb pb false
  | _, _, _ => .err "unexpected or mistmatched type pair"

/-- The `zip` + `try_for_each` phase of the tuple-element comparison
(`Punctuated`'s element phase specialized to `Type`). -/
def tyZip : List Ty → List Ty → Bool → CmpRes
  | x :: xs, y :: ys, fl => (tyCmp x y fl).andThen (tyZip xs ys fl)
  | _, _, _ => .ok

end

/-- A `syn::Field`: its attributes, its optional identifier (absent for
positional fields), and its type. -/
structure Field where
  attrs : List Attribute
  ident : Option String
  ty : Ty

/-- `SynCompare for Field`: compare the optional identifiers, then the
types, both with the flag reset to `false`.  The field's attributes are
not examined. -/
def fieldCmp (a b : Field) (_ : Bool) : CmpRes :=
  (optCmp identCmp a.ident b.ident false).andThen (tyCmp a.ty b.ty false)

/-- `syn::Fields`: named fields, unnamed (positional) fields, or a unit
field container. -/
inductive Fields where
  | named : List Field → Fields
  | unnamed : List Field → Fields
  | unit : Fields

/-- `SynCompare for FieldsNamed`: compare the named-field sequences with
the flag reset to `false`. -/
def fieldsNamedCmp (a b : List Field) (_ : Bool) : CmpRes :=
  punctuatedCmp fieldCmp a b false

/-- `SynCompare for FieldsUnnamed`: compare the unnamed-field sequences
with the flag reset to `false`. -/
def fieldsUnnamedCmp (a b : List Field) (_ : Bool) : CmpRes :=
  punctuatedCmp fieldCmp a b false

/-- `SynCompare for Fields`: the container kinds must match, unit against
unit succeeds, named/unnamed containers compare their field sequences with
the flag reset to `false`, and mixed kinds are an error. -/
def fieldsCmp : Fields → Fields → Bool → CmpRes
  | .named a, .named b, _ => fieldsNamedCmp a b false
  | .unnamed a, .unnamed b, _ => fieldsUnnamedCmp a b false
  | .unit, .unit, _ => .ok
  | _, _, _ => .err "mismatched field types"

/-- A `syn::Variant`: its identifier and its field container (the variant's
attributes and discriminant are not read by the oracle). -/
structure Variant where
  ident : String
  fields : Fields

/-- `SynCompare for Variant`: unless `ignore_variant_names` is set, compare
the variant identifiers; in every case compare the field containers, both
with the flag reset to `false`. -/
def variantCmp (a b : Variant) (ignoreVariantNames : Bool) : CmpRes :=
  (if ignoreVariantNames then .ok else identCmp a.ident b.ident false).andThen
    (fieldsCmp a.fields b.fields false)

/-- `SynCompare for DataStruct`: compare the field containers with the flag
reset to `false`. -/
def dataStructCmp (a b : Fields) (_ : Bool) : CmpRes :=
  fieldsCmp a b false

/-- `SynCompare for DataEnum`: compare the variant sequences, passing the
`ignore_variant_names` flag through to each variant comparison. -/
def dataEnumCmp (a b : List Variant) (ignoreVariantNames : Bool) : CmpRes :=
  punctuatedCmp variantCmp a b ignoreVariantNames

/-- `syn::Data`: a struct body (its field container), an enum body (its
variant sequence), or a union body (whose fields the oracle never reads). -/
inductive Data where
  | dstruct : Fields → Data
  | denum : List Variant → Data
  | dunion : Data

/-- A `syn::DeriveInput`: attributes, the declaration identifier, and the
data body. -/
structure DeriveInput where
  attrs : List Attribute
  ident : String
  data : Data

/-- `SynCompare for DeriveInput`, the oracle's entry point: compare the
top-level identifiers with the flag reset to `false` (so never relaxed),
then the normalized serde attribute sets, then dispatch on the data kinds —
struct against struct and enum against enum recurse with the flag passed
through, union against union and any mixed pairing are errors. -/
def syn_cmp (a b : DeriveInput) (ignoreVariantNames : Bool) : CmpRes :=
  (identCmp a.ident b.ident false).andThen
    ((compare_attributes a.attrs b.attrs).andThen
      (match a.data, b.data with
       | .dstruct fa, .dstruct fb => dataStructCmp fa fb ignoreVariantNames
       | .denum va, .denum vb => dataEnumCmp va vb ignoreVariantNames
       | .dunion, .dunion => .err "unions are not supported"
       | _, _ => .err "mismatched data"))

mutual

/-- A type representable in the spec's Declaration Tree model: a Path
reference (no qualified-self) or a Tuple of such types.  Other `syn` type
kinds are outside the model. -/
def Ty.supported : Ty → Bool
  | .path q _ => !q
  | .tuple es => tyListSupported es
  | .other => false

/-- All types of a list are representable Type References. -/
def tyListSupported : List Ty → Bool
  | [] => true
  | t :: ts => t.supported && tyListSupported ts

end

/-- A field whose type is a representable Type Reference. -/
def Field.supported (f : Field) : Bool :=
  f.ty.supported

/-- A field container whose fields are all representable. -/
def Fields.supported : Fields → Bool
  | .named l => l.all Field.supported
  | .unnamed l => l.all Field.supported
  | .unit => true

/-- A variant whose field container is representable. -/
def Variant.supported (v : Variant) : Bool :=
  v.fields.supported

/-- A data body representable in the Declaration Tree model: a Record
(struct) or a Union (enum) of representable content; Rust `union` bodies
are outside the model. -/
def Data.supported : Data → Bool
  | .dstruct f => f.supported
  | .denum vs => vs.all Variant.supported
  | .dunion => false

/-- A declaration representable in the Declaration Tree model: its body is
representable and its attributes normalize without triggering the
normalizer's assertion. -/
def DeriveInput.supported (d : DeriveInput) : Bool :=
  d.data.supported && (get_serde d.attrs).isSome

end Typify

/-! ## Basic lemmas about the comparison combinators -/

namespace Typify

theorem identCmp_self (a : String) (fl : Bool) : identCmp a a fl = CmpRes.ok := by
  simp [identCmp]

theorem identCmp_eq_ok (a b : String) (fl : Bool) :
    identCmp a b fl = CmpRes.ok ↔ a = b := by
  by_cases h : a = b <;> simp [identCmp, h]

theorem optCmp_ident_self (x : Option String) (fl : Bool) :
    optCmp identCmp x x fl = CmpRes.ok := by
  cases x <;> simp [optCmp, identCmp_self]

theorem optCmp_ident_eq_ok (x y : Option String) (fl : Bool) :
    optCmp identCmp x y fl = CmpRes.ok ↔ x = y := by
  cases x <;> cases y <;> simp [optCmp, identCmp_eq_ok]

theorem andThen_eq_ok (a b : CmpRes) :
    a.andThen b = CmpRes.ok ↔ a = CmpRes.ok ∧ b = CmpRes.ok := by
  cases a <;> simp [CmpRes.andThen]

mutual

theorem tyCmp_refl : ∀ (t : Ty) (fl : Bool), t.supported = true → tyCmp t t fl = CmpRes.ok
  | .path q p, fl, h => by
    have hq : q = false := by simpa [Ty.supported] using h
    subst hq
    simp [tyCmp, typePathCmp]
  | .tuple es, fl, h => by
    have h2 := tyZip_refl es false (by simpa [Ty.supported] using h)
    simp [tyCmp, h2]

theorem tyZip_refl : ∀ (l : List Ty) (fl : Bool),
    tyListSupported l = true → tyZip l l fl = CmpRes.ok
  | [], fl, _ => by simp [tyZip]
  | t :: ts, fl, h => by
    have h1 : t.supported = true := by
      have h' := h
      simp [tyListSupported] at h'
      exact h'.1
    have h2 : tyListSupported ts = true := by
      have h' := h
      simp [tyListSupported] at h'
      exact h'.2
    simp [tyZip, tyCmp_refl t fl h1, tyZip_refl ts fl h2, CmpRes.andThen]

end

theorem fieldCmp_refl (f : Field) (fl : Bool) (h : f.supported = true) :
    fieldCmp f f fl = CmpRes.ok := by
  simp [fieldCmp, optCmp_ident_self, CmpRes.andThen,
    tyCmp_refl f.ty false (by simpa [Field.supported] using h)]

theorem zipCmp_refl (cmp : α → α → Bool → CmpRes) (l : List α) (fl : Bool)
    (h : ∀ x ∈ l, cmp x x fl = CmpRes.ok) : zipCmp cmp l l fl = CmpRes.ok := by
  induction l with
  | nil => rfl
  | cons x xs ih =>
    simp [zipCmp, h x (by simp), ih (fun y hy => h y (by simp [hy])), CmpRes.andThen]

theorem punctuatedCmp_refl (cmp : α → α → Bool → CmpRes) (l : List α) (fl : Bool)
    (h : ∀ x ∈ l, cmp x x fl = CmpRes.ok) : punctuatedCmp cmp l l fl = CmpRes.ok := by
  simp [punctuatedCmp, zipCmp_refl cmp l fl h]

theorem fieldsCmp_refl (f : Fields) (fl : Bool) (h : f.supported = true) :
    fieldsCmp f f fl = CmpRes.ok := by
  cases f with
  | named l =>
    simp [Fields.supported, List.all_eq_true] at h
    exact punctuatedCmp_refl _ _ _ (fun x hx => fieldCmp_refl x false (h x hx))
  | unnamed l =>
    simp [Fields.supported, List.all_eq_true] at h
    exact punctuatedCmp_refl _ _ _ (fun x hx => fieldCmp_refl x false (h x hx))
  | unit => rfl

theorem variantCmp_refl (v : Variant) (fl : Bool) (h : v.supported = true) :
    variantCmp v v fl = CmpRes.ok := by
  cases fl <;>
    simp [variantCmp, identCmp_self, CmpRes.andThen,
      fieldsCmp_refl v.fields false (by simpa [Variant.supported] using h)]

theorem compare_attributes_refl (attrs : List Attribute)
    (h : (get_serde attrs).isSome = true) :
    compare_attributes attrs attrs = CmpRes.ok := by
  obtain ⟨s, hs⟩ := Option.isSome_iff_exists.mp h
  simp [compare_attributes, hs]

/-! ## Claim C1 -/

/-- C1: Reflexivity — for every declaration `d` representable in the
Declaration Tree model (struct/enum data, path/tuple types without
qualified-self, attributes the normalizer accepts), comparing `d` against
itself with the relaxation flag `false` succeeds. -/
theorem C1_reflexivity (d : DeriveInput) (h : d.supported = true) :
    syn_cmp d d false = CmpRes.ok := by
  obtain ⟨attrs, idnt, data⟩ := d
  simp [DeriveInput.supported] at h
  obtain ⟨hdata, hattrs⟩ := h
  unfold syn_cmp
  simp [identCmp_self, compare_attributes_refl _ hattrs, CmpRes.andThen]
  cases data with
  | dstruct f =>
    exact fieldsCmp_refl f false (by simpa [Data.supported, dataStructCmp] using hdata)
  | denum vs =>
    simp [Data.supported, List.all_eq_true] at hdata
    exact punctuatedCmp_refl _ _ _ (fun v hv => variantCmp_refl v false (hdata v hv))
  | dunion => simp [Data.supported] at hdata

/-- Witness for C1 at a concrete declaration
`#[serde(default)] struct Foo { x: u32 }`. -/
theorem C1_reflexivity_witness :
    DeriveInput.supported
        ⟨[⟨["serde"], [.group [.ident "default"]]⟩], "Foo",
          .dstruct (.named [⟨[], some "x", .path false ["u32"]⟩])⟩ = true ∧
      syn_cmp
        ⟨[⟨["serde"], [.group [.ident "default"]]⟩], "Foo",
          .dstruct (.named [⟨[], some "x", .path false ["u32"]⟩])⟩
        ⟨[⟨["serde"], [.group [.ident "default"]]⟩], "Foo",
          .dstruct (.named [⟨[], some "x", .path false ["u32"]⟩])⟩ false = CmpRes.ok :=
  ⟨by decide, C1_reflexivity _ (by decide)⟩

end Typify

/-! ## Lemmas about `get_serde` -/

namespace Typify

theorem get_serde_cons (a : Attribute) (attrs : List Attribute) :
    get_serde (a :: attrs) =
      match get_serde attrs with
      | none => none
      | some s =>
        match serdeStep a with
        | .skip => some s
        | .opts l => some (l.toFinset ∪ s)
        | .panicked => none := rfl

theorem get_serde_cons_skip (a : Attribute) (attrs : List Attribute)
    (h : serdeStep a = SerdeStep.skip) : get_serde (a :: attrs) = get_serde attrs := by
  rw [get_serde_cons]
  cases hg : get_serde attrs <;> simp [h]

theorem get_serde_cons_panicked (a : Attribute) (attrs : List Attribute)
    (h : serdeStep a = SerdeStep.panicked) : get_serde (a :: attrs) = none := by
  rw [get_serde_cons]
  cases hg : get_serde attrs <;> simp [h]

theorem get_serde_cons_opts (a : Attribute) (attrs : List Attribute) (l : List String)
    (h : serdeStep a = SerdeStep.opts l) :
    get_serde (a :: attrs) = (get_serde attrs).map (fun s => l.toFinset ∪ s) := by
  rw [get_serde_cons]
  cases hg : get_serde attrs <;> simp [h]

theorem serdeStep_group_extra (g : List TokenTree) (t : TokenTree)
    (rest : List TokenTree) :
    serdeStep ⟨["serde"], TokenTree.group g :: t :: rest⟩ = SerdeStep.panicked := by
  simp [serdeStep, List.isEmpty]

theorem serdeStep_not_group (t : TokenTree) (rest : List TokenTree)
    (h : t.isGroup = false) :
    serdeStep ⟨["serde"], t :: rest⟩ = SerdeStep.skip := by
  cases t <;> simp_all [serdeStep, TokenTree.isGroup]

theorem serdeStep_empty : serdeStep ⟨["serde"], []⟩ = SerdeStep.skip := by
  simp [serdeStep]

/-! ## Claim C2 -/

/-- C2 counterexample: two fields that agree on identifier and type but
carry different serde attribute sets (`#[serde(default)]` against no
attributes) compare successfully, so the field comparison does not require
the Normalized Attribute Sets to agree. -/
theorem C2_counterexample :
    fieldCmp ⟨[⟨["serde"], [.group [.ident "default"]]⟩], some "x", .path false ["u32"]⟩
        ⟨[], some "x", .path false ["u32"]⟩ false = CmpRes.ok ∧
      get_serde [⟨["serde"], [.group [.ident "default"]]⟩] ≠ get_serde [] := by
  constructor
  · decide
  · decide

/-- C2 (amended): each field pair compares the optional identifiers
(absence must match on both sides) and then the Type References, succeeding
exactly when both agree; the field's attributes are never examined. -/
theorem C2_field_comparison :
    (∀ (a b : Field) (fl : Bool),
      fieldCmp a b fl = CmpRes.ok ↔
        a.ident = b.ident ∧ tyCmp a.ty b.ty false = CmpRes.ok) ∧
    (∀ (attrs1 attrs2 : List Attribute) (i : Option String) (t : Ty)
        (b : Field) (fl : Bool),
      fieldCmp ⟨attrs1, i, t⟩ b fl = fieldCmp ⟨attrs2, i, t⟩ b fl) := by
  constructor
  · intro a b fl
    simp [fieldCmp, andThen_eq_ok, optCmp_ident_eq_ok]
  · intro attrs1 attrs2 i t b fl
    rfl

/-! ## Claim C3 -/

/-- C3 counterexample: a serde annotation whose payload is not exactly one
group — an empty payload, or a payload starting with a non-group token —
is silently skipped by the normalizer (yielding the empty option set), not
a panic. -/
theorem C3_counterexample :
    get_serde [⟨["serde"], []⟩] = some ∅ ∧
      get_serde [⟨["serde"], [.punct '=', .lit "\"test\""]⟩] = some ∅ := by
  constructor
  · decide
  · decide

/-- C3 (amended): the normalizer panics only when a serde annotation's
payload starts with a group followed by at least one further token; a
payload that does not begin with a group (including an empty payload) is
silently skipped, contributing nothing to the option set. -/
theorem C3_group_assertion :
    (∀ (g : List TokenTree) (t : TokenTree) (rest : List TokenTree)
        (attrs : List Attribute),
      get_serde (⟨["serde"], TokenTree.group g :: t :: rest⟩ :: attrs) = none) ∧
    (∀ (t : TokenTree) (rest : List TokenTree) (attrs : List Attribute),
      t.isGroup = false →
      get_serde (⟨["serde"], t :: rest⟩ :: attrs) = get_serde attrs) ∧
    (∀ attrs : List Attribute,
      get_serde (⟨["serde"], []⟩ :: attrs) = get_serde attrs) := by
  refine ⟨fun g t rest attrs => ?_, fun t rest attrs h => ?_, fun attrs => ?_⟩
  · exact get_serde_cons_panicked _ _ (serdeStep_group_extra g t rest)
  · exact get_serde_cons_skip _ _ (serdeStep_not_group t rest h)
  · exact get_serde_cons_skip _ _ serdeStep_empty

/-- Witness for C3 (amended) at concrete inputs: `#[serde(default) extra]`
panics, and `#[serde = "x"]` is skipped. -/
theorem C3_group_assertion_witness :
    get_serde [⟨["serde"], [.group [.ident "default"], .ident "extra"]⟩] = none ∧
      (TokenTree.punct '=').isGroup = false ∧
      get_serde [⟨["serde"], [.punct '=', .lit "\"x\""]⟩] = get_serde [] :=
  ⟨C3_group_assertion.1 [.ident "default"] (.ident "extra") [] [],
    by decide,
    C3_group_assertion.2.1 (.punct '=') [.lit "\"x\""] [] (by decide)⟩

/-! ## Claim C4 -/

/-- C4: for `Union{Foo(i32)}` against `Union{Bar(i32)}` — equal apart from
the variant identifier — comparison with the relaxation flag `true`
succeeds, and with the flag `false` fails with an identifier-mismatch
diagnostic. -/
theorem C4_variant_name_relaxation :
    syn_cmp ⟨[], "E", .denum [⟨"Foo", .unnamed [⟨[], none, .path false ["i32"]⟩]⟩]⟩
        ⟨[], "E", .denum [⟨"Bar", .unnamed [⟨[], none, .path false ["i32"]⟩]⟩]⟩
        true = CmpRes.ok ∧
      syn_cmp ⟨[], "E", .denum [⟨"Foo", .unnamed [⟨[], none, .path false ["i32"]⟩]⟩]⟩
        ⟨[], "E", .denum [⟨"Bar", .unnamed [⟨[], none, .path false ["i32"]⟩]⟩]⟩
        false = CmpRes.err "idents differ: Foo Bar" := by
  constructor
  · decide
  · decide

end Typify

/-! ## Claims C5-C7 -/

namespace Typify

/-- C5: the relaxation flag suppresses only the variant-identifier
comparison — a relaxed variant comparison is exactly the field-container
comparison, an unrelaxed variant comparison with equal identifiers is the
same field-container comparison, the field-container comparison never
depends on the flag, and a successful comparison always implies the
top-level declaration identifiers agree, whatever the flag. -/
theorem C5_relaxation_scope :
    (∀ a b : Variant, variantCmp a b true = fieldsCmp a.fields b.fields false) ∧
    (∀ a b : Variant, a.ident = b.ident →
      variantCmp a b false = fieldsCmp a.fields b.fields false) ∧
    (∀ (fa fb : Fields) (fl : Bool), fieldsCmp fa fb fl = fieldsCmp fa fb false) ∧
    (∀ (d1 d2 : DeriveInput) (fl : Bool),
      syn_cmp d1 d2 fl = CmpRes.ok → d1.ident = d2.ident) := by
  refine ⟨fun a b => ?_, fun a b h => ?_, fun fa fb fl => ?_, fun d1 d2 fl h => ?_⟩
  · simp [variantCmp, CmpRes.andThen]
  · simp [variantCmp, h, identCmp_self, CmpRes.andThen]
  · cases fa <;> cases fb <;> rfl
  · simp only [syn_cmp, andThen_eq_ok] at h
    exact (identCmp_eq_ok _ _ _).mp h.1

/-- Witness for C5 at concrete inputs: two variants with the same name
compare as their field containers, and a successful comparison of two
declarations named `E` yields the (equal) identifiers. -/
theorem C5_relaxation_scope_witness :
    variantCmp ⟨"A", Fields.unit⟩ ⟨"A", Fields.unit⟩ false =
        fieldsCmp Fields.unit Fields.unit false ∧
      ("E" : String) = "E" :=
  ⟨C5_relaxation_scope.2.1 ⟨"A", Fields.unit⟩ ⟨"A", Fields.unit⟩ rfl,
    C5_relaxation_scope.2.2.2 ⟨[], "E", .dstruct Fields.unit⟩
      ⟨[], "E", .dstruct Fields.unit⟩ true (by decide)⟩

theorem zipCmp_eq_ok_get (cmp : α → α → Bool → CmpRes) :
    ∀ (a b : List α) (fl : Bool), zipCmp cmp a b fl = CmpRes.ok →
      ∀ (i : Nat) (h1 : i < a.length) (h2 : i < b.length),
        cmp (a.get ⟨i, h1⟩) (b.get ⟨i, h2⟩) fl = CmpRes.ok := by
  intro a
  induction a with
  | nil => intro b fl h i h1 h2; simp at h1
  | cons x xs ih =>
    intro b fl h i h1 h2
    cases b with
    | nil => simp at h2
    | cons y ys =>
      simp only [zipCmp, andThen_eq_ok] at h
      cases i with
      | zero => exact h.1
      | succ n => exact ih ys fl h.2 n (by simpa using h1) (by simpa using h2)

/-- C6: union variants are compared pairwise by position — a successful
enum-body comparison makes every index-i pair of variants compare
successfully — and the two unions
`Union{A(i32), B(String)}` / `Union{B(String), A(i32)}`, equal up to
swapping the variant positions, report an identifier mismatch under the
non-relaxed comparison. -/
theorem C6_positional :
    syn_cmp
        ⟨[], "E", .denum [⟨"A", .unnamed [⟨[], none, .path false ["i32"]⟩]⟩,
          ⟨"B", .unnamed [⟨[], none, .path false ["String"]⟩]⟩]⟩
        ⟨[], "E", .denum [⟨"B", .unnamed [⟨[], none, .path false ["String"]⟩]⟩,
          ⟨"A", .unnamed [⟨[], none, .path false ["i32"]⟩]⟩]⟩
        false = CmpRes.err "idents differ: A B" ∧
      (∀ (va vb : List Variant) (fl : Bool),
        dataEnumCmp va vb fl = CmpRes.ok →
          ∀ (i : Nat) (h1 : i < va.length) (h2 : i < vb.length),
            variantCmp (va.get ⟨i, h1⟩) (vb.get ⟨i, h2⟩) fl = CmpRes.ok) := by
  constructor
  · decide
  · intro va vb fl h i h1 h2
    have hz : zipCmp variantCmp va vb fl = CmpRes.ok := by
      by_cases hl : va.length = vb.length
      · simpa [dataEnumCmp, punctuatedCmp, hl] using h
      · simp [dataEnumCmp, punctuatedCmp, hl] at h
    exact zipCmp_eq_ok_get variantCmp va vb fl hz i h1 h2

/-- Witness for C6 at a concrete input: a successful one-variant enum-body
comparison yields the successful comparison of the variants at index 0. -/
theorem C6_positional_witness :
    variantCmp ⟨"A", Fields.unit⟩ ⟨"A", Fields.unit⟩ false = CmpRes.ok :=
  C6_positional.2 [⟨"A", Fields.unit⟩] [⟨"A", Fields.unit⟩] false (by decide) 0
    (by decide) (by decide)

/-- C7: whenever two compared sequences differ in length — for any element
comparison whatsoever, so in particular for variants, named fields, unnamed
fields and tuple elements — the result is immediately the length-mismatch
error carrying both lengths, with no element compared; a 2-field record
against a 3-field record yields exactly `lengths don't match: 2 != 3`. -/
theorem C7_length_mismatch :
    (∀ (α : Type) (cmp : α → α → Bool → CmpRes) (a b : List α) (fl : Bool),
      a.length ≠ b.length →
        punctuatedCmp cmp a b fl = CmpRes.err (lengthMsg a.length b.length)) ∧
    (∀ (a b : List Ty) (fl : Bool), a.length ≠ b.length →
      tyCmp (.tuple a) (.tuple b) fl = CmpRes.err (lengthMsg a.length b.length)) ∧
    fieldsCmp
      (.named [⟨[], some "x", .path false ["u32"]⟩, ⟨[], some "y", .path false ["u32"]⟩])
      (.named [⟨[], some "x", .path false ["u32"]⟩, ⟨[], some "y", .path false ["u32"]⟩,
        ⟨[], some "z", .path false ["u32"]⟩]) false =
      CmpRes.err "lengths don't match: 2 != 3" := by
  refine ⟨fun α cmp a b fl h => ?_, fun a b fl h => ?_, by decide⟩
  · simp [punctuatedCmp, h]
  · simp [tyCmp, h]

/-- Witness for C7 at concrete inputs: an empty variant sequence against a
one-variant sequence, and an empty tuple against a one-element tuple. -/
theorem C7_length_mismatch_witness :
    punctuatedCmp variantCmp ([] : List Variant) [⟨"A", Fields.unit⟩] false =
        CmpRes.err (lengthMsg 0 1) ∧
      tyCmp (.tuple []) (.tuple [.path false ["i32"]]) false =
        CmpRes.err (lengthMsg 0 1) :=
  ⟨C7_length_mismatch.1 Variant variantCmp [] [⟨"A", Fields.unit⟩] false (by decide),
    C7_length_mismatch.2.1 [] [.path false ["i32"]] false (by decide)⟩

end Typify

/-! ## Claim C8 -/

namespace Typify

theorem tyZip_eq_ok_iff : ∀ (a b : List Ty) (fl : Bool),
    tyZip a b fl = CmpRes.ok ↔ ∀ p ∈ a.zip b, tyCmp p.1 p.2 fl = CmpRes.ok
  | [], b, fl => by simp [tyZip]
  | a :: as_, [], fl => by simp [tyZip]
  | x :: xs, y :: ys, fl => by
    simp [tyZip, andThen_eq_ok, tyZip_eq_ok_iff xs ys fl]

/-- C8: type-reference comparison — two qself-free path references compare
successfully exactly when the paths are equal; two tuple references compare
successfully exactly when the element sequences have equal length and are
element-wise equivalent; and every cross-kind pairing (path against tuple,
in either order) or pairing involving an unrecognized type kind is an
immediate descriptive error, never a silent pass. -/
theorem C8_type_reference :
    (∀ (pa pb : List String) (fl : Bool),
      tyCmp (.path false pa) (.path false pb) fl = CmpRes.ok ↔ pa = pb) ∧
    (∀ (a b : List Ty) (fl : Bool),
      tyCmp (.tuple a) (.tuple b) fl = CmpRes.ok ↔
        a.length = b.length ∧ ∀ p ∈ a.zip b, tyCmp p.1 p.2 false = CmpRes.ok) ∧
    (∀ (qa : Bool) (pa : List String) (l : List Ty) (fl : Bool),
      tyCmp (.path qa pa) (.tuple l) fl =
          CmpRes.err "unexpected or mistmatched type pair" ∧
        tyCmp (.tuple l) (.path qa pa) fl =
          CmpRes.err "unexpected or mistmatched type pair") ∧
    (∀ (t : Ty) (fl : Bool),
      tyCmp Ty.other t fl = CmpRes.err "unexpected or mistmatched type pair" ∧
        tyCmp t Ty.other fl = CmpRes.err "unexpected or mistmatched type pair") := by
  refine ⟨fun pa pb fl => ?_, fun a b fl => ?_, fun qa pa l fl => ⟨?_, ?_⟩,
    fun t fl => ⟨?_, ?_⟩⟩
  · by_cases h : pa = pb <;> simp [tyCmp, typePathCmp, h]
  · by_cases hl : a.length = b.length
    · simp [tyCmp, hl, tyZip_eq_ok_iff]
    · simp [tyCmp, hl]
  · simp [tyCmp]
  · simp [tyCmp]
  · cases t <;> simp [tyCmp]
  · cases t <;> simp [tyCmp]

/-- Witness for C8 at a concrete input: the one-element tuples `(i32,)`
compare successfully via the element-wise characterization. -/
theorem C8_type_reference_witness :
    tyCmp (.tuple [.path false ["i32"]]) (.tuple [.path false ["i32"]]) false =
      CmpRes.ok :=
  (C8_type_reference.2.1 [.path false ["i32"]] [.path false ["i32"]] false).mpr
    (by decide)

/-! ## Claim C9 -/

theorem splitOnComma_ne_nil : ∀ l : List TokenTree, splitOnComma l ≠ []
  | [] => by simp [splitOnComma]
  | t :: ts => by
    by_cases h : t.isComma = true
    · simp [splitOnComma, h]
    · cases hs : splitOnComma ts with
      | nil => simp [splitOnComma, h, hs]
      | cons g gs => simp [splitOnComma, h, hs]

theorem splitOnComma_append : ∀ a b : List TokenTree,
    splitOnComma (a ++ TokenTree.punct ',' :: b) = splitOnComma a ++ splitOnComma b
  | [], b => by simp [splitOnComma, TokenTree.isComma]
  | t :: ts, b => by
    rcases hs : splitOnComma ts with _ | ⟨g, gs⟩
    · exact absurd hs (splitOnComma_ne_nil ts)
    · by_cases h : t.isComma = true
      · simp [splitOnComma, h, splitOnComma_append ts b]
      · simp [splitOnComma, h, splitOnComma_append ts b, hs]

theorem splitOnComma_comma_free : ∀ d : List TokenTree,
    d.all (fun t => !t.isComma) = true → splitOnComma d = [d]
  | [], _ => rfl
  | t :: ts, h => by
    simp only [List.all_cons, Bool.and_eq_true, Bool.not_eq_true'] at h
    simp [splitOnComma, h.1, splitOnComma_comma_free ts h.2]

/-- C9: a directive token run whose rendered string starts with `"rename"`
is dropped by the normalizer, so adding such a directive to a serde
annotation, or carrying a serde annotation consisting only of such a
directive, leaves the normalized set unchanged; field attributes are never
examined by the field comparison; and two declarations with the same
normalized attribute sets compare identically however their raw attributes
differ. -/
theorem C9_rename_insensitive :
    (∀ (g d : List TokenTree) (rest : List Attribute),
      d.all (fun t => !t.isComma) = true →
      strStartsWith (renderStream d) "rename" = true →
      get_serde (⟨["serde"], [.group (g ++ TokenTree.punct ',' :: d)]⟩ :: rest) =
        get_serde (⟨["serde"], [.group g]⟩ :: rest)) ∧
    (∀ (d : List TokenTree) (rest : List Attribute),
      d.all (fun t => !t.isComma) = true →
      strStartsWith (renderStream d) "rename" = true →
      get_serde (⟨["serde"], [.group d]⟩ :: rest) = get_serde rest) ∧
    (∀ (attrs1 attrs2 : List Attribute) (i : Option String) (t : Ty)
        (b : Field) (fl : Bool),
      fieldCmp ⟨attrs1, i, t⟩ b fl = fieldCmp ⟨attrs2, i, t⟩ b fl) ∧
    (∀ (a1 a2 : List Attribute) (i : String) (dat : Data) (b : DeriveInput)
        (fl : Bool), get_serde a1 = get_serde a2 →
      syn_cmp ⟨a1, i, dat⟩ b fl = syn_cmp ⟨a2, i, dat⟩ b fl) := by
  refine ⟨fun g d rest hcf hren => ?_, fun d rest hcf hren => ?_,
    fun attrs1 attrs2 i t b fl => rfl, fun a1 a2 i dat b fl h => ?_⟩
  · have h1 : serdeStep ⟨["serde"], [.group (g ++ TokenTree.punct ',' :: d)]⟩ =
        SerdeStep.opts (((splitOnComma g).map renderStream).filter
          (fun s => !strStartsWith s "rename")) := by
      simp [serdeStep, splitOnComma_append, splitOnComma_comma_free d hcf,
        List.filter_append, hren]
    have h2 : serdeStep ⟨["serde"], [.group g]⟩ =
        SerdeStep.opts (((splitOnComma g).map renderStream).filter
          (fun s => !strStartsWith s "rename")) := by
      simp [serdeStep]
    rw [get_serde_cons_opts _ _ _ h1, get_serde_cons_opts _ _ _ h2]
  · have h1 : serdeStep ⟨["serde"], [.group d]⟩ = SerdeStep.opts [] := by
      simp [serdeStep, splitOnComma_comma_free d hcf, hren]
    rw [get_serde_cons_opts _ _ _ h1]
    cases get_serde rest <;> simp
  · simp [syn_cmp, compare_attributes, h]

/-- Witness for C9 at a concrete input: appending `, rename = "x"` to
`#[serde(default)]` leaves the normalized set unchanged, and a lone
`#[serde(rename = "x")]` normalizes like no serde annotation at all. -/
theorem C9_rename_insensitive_witness :
    get_serde [⟨["serde"],
        [.group ([.ident "default"] ++ TokenTree.punct ',' ::
          [.ident "rename", .punct '=', .lit "\"x\""])]⟩] =
      get_serde [⟨["serde"], [.group [.ident "default"]]⟩] ∧
    get_serde [⟨["serde"], [.group [.ident "rename", .punct '=', .lit "\"x\""]]⟩] =
      get_serde [] :=
  ⟨C9_rename_insensitive.1 [.ident "default"]
      [.ident "rename", .punct '=', .lit "\"x\""] [] (by decide) (by decide),
    C9_rename_insensitive.2.1 [.ident "rename", .punct '=', .lit "\"x\""] []
      (by decide) (by decide)⟩

/-! ## Claim C10 -/

/-- C10: comparing two path type references where either side carries a
qualified-self (`qself`) aborts via the assertion — the outcome is the
panic, not a success and not a descriptive mismatch result. -/
theorem C10_qself_panics (pa pb : List String) (q fl : Bool) :
    tyCmp (.path true pa) (.path q pb) fl = CmpRes.panicked ∧
      tyCmp (.path q pa) (.path true pb) fl = CmpRes.panicked := by
  cases q <;> simp [tyCmp, typePathCmp]

end Typify

namespace Typify

/-- Witness for C2 (amended) at a concrete input: equal identifier and
type yield a successful field comparison via the characterization. -/
theorem C2_field_comparison_witness :
    fieldCmp ⟨[], some "x", .path false ["u32"]⟩ ⟨[], some "x", .path false ["u32"]⟩
      false = CmpRes.ok :=
  (C2_field_comparison.1 ⟨[], some "x", .path false ["u32"]⟩
    ⟨[], some "x", .path false ["u32"]⟩ false).mpr (by decide)

/-- Witness for C10 at a concrete input. -/
theorem C10_qself_panics_witness :
    tyCmp (.path true ["T"]) (.path false ["T"]) false = CmpRes.panicked ∧
      tyCmp (.path false ["T"]) (.path true ["T"]) false = CmpRes.panicked :=
  C10_qself_panics ["T"] ["T"] false false

end Typify
